import Mathlib

/-!
Shallow embedding of the mongo-queue processing module (src/lib/queue.js).

Records live in a single collection; timestamps and millisecond delays are
modelled as rationals (the host runtime uses one numeric type for both).
Each store mutation from the source is a pure function on a `Record`;
`new Date()` / `Date.now()` inside one operation is a single `now` argument.
The host's `Math.pow` (float exponentiation, used by the backoff
calculator with a possibly fractional coefficient) is kept abstract as a
`pow` field of the options, since float semantics are not translatable.
-/

namespace MongoQueue

/-- Status codes of a queue record, from the STATUS_CODES table of
src/lib/queue.js. -/
inductive Status where
  | received
  | processed
  | failed
  | skipped
  | notified
  | notifyFailure
deriving DecidableEq, BEq, Repr

/-- A queue record. Fields that MongoDB documents may lack are `Option`;
`retryCount` is a `Nat` with `0` standing for both an absent field and a
stored `0` (the source only ever tests it for JS truthiness or reads it
with a `|| 0` default, so the two are indistinguishable to the code). -/
structure Record where
  id : Nat
  status : Status
  receivedDate : ℚ
  available : Option ℚ
  processedDate : Option ℚ
  retryCount : Nat
  failureReason : Option String
  immediateFailure : Bool
  additionalInfo : Option String
  notifyFailureReason : Option String
  resetDate : Option ℚ
  data : String
deriving DecidableEq, Repr

/-- Configuration options read by the queue factory (subset relevant to the
processing logic). `pow` stands for the host's `Math.pow`. -/
structure Opts where
  batchSize : Nat
  retryLimit : Int
  backoffMs : ℚ
  backoffCoefficient : ℚ
  continueProcessingOnError : Bool
  pow : ℚ → ℚ → ℚ

/-- Mongo match of `available: { $lte: now }`, and also the JS comparison
`record.available <= new Date()`: a missing field matches neither. -/
def availLE (r : Record) (now : ℚ) : Bool :=
  match r.available with
  | some t => decide (t ≤ now)
  | none => false

/-- JS comparison `record.available > new Date()`: false when the field is
missing (comparison with `undefined` is false). -/
def availFuture (r : Record) (now : ℚ) : Bool :=
  match r.available with
  | some t => decide (now < t)
  | none => false

/-- Match of the `getUnprocessed` query of `getNextBatch`:
status in received/failed/skipped and `available <= now`. -/
def unprocessedMatch (now : ℚ) (r : Record) : Bool :=
  (r.status == .received || r.status == .failed || r.status == .skipped)
    && availLE r now

/-- Match of the query built by `getNextBatch`: in lenient mode the
`getUnprocessed` query alone; in strict mode the `$or` of
`status = failed` with `getUnprocessed`. -/
def batchQuery (continueProcessingOnError : Bool) (now : ℚ) (r : Record) : Bool :=
  if continueProcessingOnError then unprocessedMatch now r
  else (r.status == .failed) || unprocessedMatch now r

/-- Sort key used by `getNextBatch`: `receivedDate` ascending. -/
def recLE (a b : Record) : Prop :=
  a.receivedDate ≤ b.receivedDate

instance : DecidableRel recLE := fun a b =>
  inferInstanceAs (Decidable (a.receivedDate ≤ b.receivedDate))

instance : IsTotal Record recLE :=
  ⟨fun a b => le_total a.receivedDate b.receivedDate⟩

instance : IsTrans Record recLE :=
  ⟨fun _ _ _ hab hbc => le_trans hab hbc⟩

/-- Fetch phase of `getNextBatch`: find the matching records, sort by
`receivedDate` ascending, limit to `batchSize`. The collection is a list of
documents; `find` preserves no particular order, the sort decides it. -/
def fetchBatch (opts : Opts) (coll : List Record) (now : ℚ) : List Record :=
  (List.insertionSort recLE
      (coll.filter (batchQuery opts.continueProcessingOnError now))).take
    opts.batchSize

/-- Embedding of `prioritizeRecords`: in lenient mode the records pass
through; in strict mode, if the first `failed` record of the batch has a
future `available` the whole batch is dropped, otherwise records whose
`available` has not passed are filtered out. -/
def prioritizeRecords (opts : Opts) (now : ℚ) (records : List Record) :
    List Record :=
  if opts.continueProcessingOnError then records
  else
    match records.find? (fun r => r.status == .failed) with
    | some firstFailed =>
        if availFuture firstFailed now then []
        else records.filter (fun r => availLE r now)
    | none => records.filter (fun r => availLE r now)

/-- Embedding of `getNextBatch`: fetch then prioritize. -/
def getNextBatch (opts : Opts) (coll : List Record) (now : ℚ) : List Record :=
  prioritizeRecords opts now (fetchBatch opts coll now)

/-- Embedding of `recordHasFailed`:
`retryLimit >= 0 && record.retryCount && record.retryCount >= retryLimit`.
The middle conjunct is a JS truthiness test, false for an absent or zero
`retryCount`. -/
def recordHasFailed (retryLimit : Int) (r : Record) : Bool :=
  decide (0 ≤ retryLimit) && !(r.retryCount == 0)
    && decide (retryLimit ≤ (r.retryCount : Int))

/-- Embedding of `getErrorBackoffMs`: reads `record.retryCount || 0` (the
`|| 0` default is the identity here, absent and zero coincide in this
model), returns 0 when it equals `retryLimit`, otherwise
`Math.pow(retryCount + 1, backoffCoefficient) * backoffMs`. -/
def getErrorBackoffMs (opts : Opts) (r : Record) : ℚ :=
  if (r.retryCount : Int) = opts.retryLimit then 0
  else opts.pow ((r.retryCount : ℚ) + 1) opts.backoffCoefficient * opts.backoffMs

/-- Embedding of the `processSuccess` update: set status/processedDate,
keep `additionalInfo` as carried on the in-memory record, unset
`failureReason`, `retryCount` and `available` (an unset `retryCount` is the
`Nat` 0 in this model). -/
def processSuccess (now : ℚ) (r : Record) : Record :=
  { r with
    status := .processed
    processedDate := some now
    failureReason := none
    retryCount := 0
    available := none }

/-- Embedding of the `processFailure` update: backoff delay computed from
the pre-failure `retryCount`, then status/processedDate/failureReason set,
`available = now + delay`, and `$inc: retryCount` by 1. -/
def processFailure (opts : Opts) (now : ℚ) (err : String) (r : Record) :
    Record :=
  let delay := getErrorBackoffMs opts r
  { r with
    status := .failed
    processedDate := some now
    failureReason := some err
    available := some (now + delay)
    retryCount := r.retryCount + 1 }

/-- Modelled from the spec: `utils.getSkipBackoff` (src/lib/utils.js is not
in the sources) extracts the delay carried by a skip signal, defaulting to
0 when none was given. -/
def getSkipBackoff (delay : Option ℚ) : ℚ :=
  delay.getD 0

/-- Embedding of the `processSkip` update: set status `skipped`,
`processedDate = now`, `available = now + skip delay`; nothing else is
touched. -/
def processSkip (now : ℚ) (delay : Option ℚ) (r : Record) : Record :=
  { r with
    status := .skipped
    processedDate := some now
    available := some (now + getSkipBackoff delay) }

/-- Embedding of the update inside `failImmediately` (before the notifier
runs): set status `failed`, `immediateFailure = true`, `failureReason`;
no `available` is written. -/
def failImmediatelyUpdate (reason : String) (r : Record) : Record :=
  { r with
    status := .failed
    immediateFailure := true
    failureReason := some reason }

/-- Embedding of `notifyFailedRecord`: run the `onFailure` hook (its
outcome is the `onFailureOk` argument); set `processedDate = now` and
status `notified`, or status `notifyFailure` plus `notifyFailureReason`
when the hook itself failed. No field is unset. -/
def notifyFailedRecord (now : ℚ) (onFailureOk : Bool) (notifyErr : String)
    (r : Record) : Record :=
  if onFailureOk then
    { r with status := .notified, processedDate := some now }
  else
    { r with
      status := .notifyFailure
      processedDate := some now
      notifyFailureReason := some notifyErr }

/-- Outcome of the user's `onProcess` handler for one record, as the
source classifies it: resolve (with optional non-empty additional info),
reject with a skip signal, reject with an immediate-fail signal, or reject
with any other error. The skip/fail recognizers live in src/lib/utils.js
(not in the sources); per the spec they are distinguishable tags, which is
what the separate constructors model. -/
inductive HandlerResult where
  | success (additionalInfo : Option String)
  | skip (delay : Option ℚ)
  | fail (reason : String)
  | error (message : String)
deriving DecidableEq, Repr

/-- Result of `processRecord` on one record: the persisted record, whether
`onProcess` was invoked, whether the terminal notifier ran, and whether
STOP_PROCESSING was thrown after the mutation committed. -/
structure ProcResult where
  record : Record
  handlerInvoked : Bool
  notifierInvoked : Bool
  stopped : Bool
deriving DecidableEq, Repr

/-- Embedding of `processRecord`: exhausted records go straight to the
notifier; otherwise the handler outcome selects the mutation, and an
ordinary error throws STOP_PROCESSING afterwards when
`continueProcessingOnError` is false. -/
def processRecord (opts : Opts) (now : ℚ) (h : HandlerResult)
    (onFailureOk : Bool) (notifyErr : String) (r : Record) : ProcResult :=
  if recordHasFailed opts.retryLimit r then
    { record := notifyFailedRecord now onFailureOk notifyErr r
      handlerInvoked := false
      notifierInvoked := true
      stopped := false }
  else
    match h with
    | .success ai =>
        let r1 := match ai with
          | some a => { r with additionalInfo := some a }
          | none => r
        { record := processSuccess now r1
          handlerInvoked := true
          notifierInvoked := false
          stopped := false }
    | .skip d =>
        { record := processSkip now d r
          handlerInvoked := true
          notifierInvoked := false
          stopped := false }
    | .fail reason =>
        { record := notifyFailedRecord now onFailureOk notifyErr
            (failImmediatelyUpdate reason r)
          handlerInvoked := true
          notifierInvoked := true
          stopped := false }
    | .error m =>
        { record := processFailure opts now m r
          handlerInvoked := true
          notifierInvoked := false
          stopped := !opts.continueProcessingOnError }

/-- Embedding of `insertNewRecord` (the store side of `enqueue`): a fresh
record is `received` and available immediately. -/
def insertNewRecord (now : ℚ) (id : Nat) (payload : String) : Record :=
  { id := id
    status := .received
    receivedDate := now
    available := some now
    processedDate := none
    retryCount := 0
    failureReason := none
    immediateFailure := false
    additionalInfo := none
    notifyFailureReason := none
    resetDate := none
    data := payload }

/-- Embedding of the per-record update of `resetRecords`: back to
`received`, fresh `receivedDate`/`available`/`resetDate`, and the
processing bookkeeping fields unset. -/
def resetRecord (now : ℚ) (r : Record) : Record :=
  { r with
    status := .received
    receivedDate := now
    available := some now
    resetDate := some now
    processedDate := none
    failureReason := none
    retryCount := 0
    immediateFailure := false
    notifyFailureReason := none }

/-- What happens while one record of a batch is handled: either the
`onProcess` handler produces an outcome, or a store/infrastructure call
fails with an error. -/
inductive StepScript where
  | handler (h : HandlerResult)
  | infra (message : String)
deriving DecidableEq, Repr

/-- One record of a batch together with the scripted behavior of the
external world while it is processed. -/
structure RecordTask where
  record : Record
  step : StepScript
  onFailureOk : Bool
  notifyErr : String
deriving DecidableEq, Repr

/-- Why a batch run stopped early: the STOP_PROCESSING sentinel, or a
propagating store/infrastructure error. -/
inductive TickStop where
  | sentinel
  | infra (message : String)
deriving DecidableEq, Repr

/-- Embedding of `.mapSeries(processRecord)`: records are processed one at
a time in order; the first thrown error (the sentinel after a committed
ordinary failure in strict mode, or an infrastructure error) stops the
series. Returns the results of the records actually processed together
with the stopping error, if any. -/
def runSeries (opts : Opts) (now : ℚ) : List RecordTask → List ProcResult × Option TickStop
  | [] => ([], none)
  | t :: rest =>
    match t.step with
    | .infra m => ([], some (.infra m))
    | .handler h =>
        let pr := processRecord opts now h t.onFailureOk t.notifyErr t.record
        if pr.stopped then ([pr], some .sentinel)
        else
          let tailRes := runSeries opts now rest
          (pr :: tailRes.1, tailRes.2)

/-- Embedding of `processNextBatch`: run the pre-hook, process the batch in
series, and swallow the STOP_PROCESSING sentinel while propagating every
other error to the caller. -/
def processNextBatch (opts : Opts) (now : ℚ) (preHookErr : Option String)
    (batch : List RecordTask) : Except String (List ProcResult) :=
  match preHookErr with
  | some e => .error e
  | none =>
    let res := runSeries opts now batch
    match res.2 with
    | some .sentinel => .ok res.1
    | some (.infra m) => .error m
    | none => .ok res.1

/-- Modelled from the spec: the per-process guard that suppresses
overlapping batch ticks ("Will have no effect if called when a batch is
currently processing"). The guard is documented in the README but its code
is not among the sources (src/lib/queue.js holds no such flag; the wrapper
module carrying it is absent), so it is modelled from the spec's words as
a busy flag owned by the orchestrator. -/
structure OrchestratorState where
  running : Bool
  ticksStarted : Nat
deriving DecidableEq, Repr

/-- Modelled from the spec: invoking a tick checks the busy flag; when a
prior tick is still running the call is a no-op (no selection, no record
processing), otherwise a tick starts. Returns the new state and whether a
tick actually started. -/
def tryStartTick (s : OrchestratorState) : OrchestratorState × Bool :=
  if s.running then (s, false)
  else ({ running := true, ticksStarted := s.ticksStarted + 1 }, true)

/-- Strict-mode selection query as the claim words it: status in
received/failed/skipped with `available <= now`, unioned with any record
of status failed. Written from the spec for comparison with `batchQuery`. -/
def specStrictQuery (now : ℚ) (r : Record) : Bool :=
  ((r.status == .received || r.status == .failed || r.status == .skipped)
      && availLE r now)
    || (r.status == .failed)

/-- Strict-mode batch selection as the amended claim words it: fetch the
records matching `specStrictQuery` sorted by `receivedDate` ascending and
limited to `batchSize`; if the first failed record of the fetch has a
future `available`, the batch is empty, otherwise the fetch filtered to
records whose `available` has passed. Written from the spec for
comparison with `getNextBatch`. -/
def specStrictSelect (batchSize : Nat) (coll : List Record) (now : ℚ) :
    List Record :=
  let fetched :=
    (List.insertionSort recLE (coll.filter (specStrictQuery now))).take batchSize
  match fetched.find? (fun r => r.status == .failed) with
  | some f =>
      if availFuture f now then []
      else fetched.filter (fun r => availLE r now)
  | none => fetched.filter (fun r => availLE r now)

/-! Basic facts about availability tests. -/

theorem availLE_true_iff (r : Record) (now : ℚ) :
    availLE r now = true ↔ ∃ t, r.available = some t ∧ t ≤ now := by
  cases h : r.available <;> simp [availLE, h]

theorem availFuture_true_iff (r : Record) (now : ℚ) :
    availFuture r now = true ↔ ∃ t, r.available = some t ∧ now < t := by
  cases h : r.available <;> simp [availFuture, h]

theorem availLE_false_of_future (r : Record) (now : ℚ)
    (h : availFuture r now = true) : availLE r now = false := by
  obtain ⟨t, ht, hlt⟩ := (availFuture_true_iff r now).mp h
  simp [availLE, ht, not_le.mpr hlt]

theorem availLE_true_of_not_future (r : Record) (now : ℚ) (t : ℚ)
    (ht : r.available = some t) (h : availFuture r now = false) :
    availLE r now = true := by
  simp only [availFuture, ht, decide_eq_false_iff_not, not_lt] at h
  simp [availLE, ht, h]


/-- Claim C4: the backoff calculator is a pure function of the retry count
and the configured `backoffMs`, `backoffCoefficient` and `retryLimit`; for
a retry count below the limit (or any retry count when the limit is
negative/unlimited) it returns `backoffMs * pow (retryCount + 1)
backoffCoefficient` where `pow` is the host float exponentiation, and at a
retry count equal to the limit it returns 0. -/
theorem backoff_formula (opts : Opts) (r : Record) :
    ((r.retryCount : Int) < opts.retryLimit ∨ opts.retryLimit < 0 →
      getErrorBackoffMs opts r =
        opts.pow ((r.retryCount : ℚ) + 1) opts.backoffCoefficient
          * opts.backoffMs) ∧
    ((r.retryCount : Int) = opts.retryLimit → getErrorBackoffMs opts r = 0) ∧
    (∀ r2 : Record, r2.retryCount = r.retryCount →
      getErrorBackoffMs opts r2 = getErrorBackoffMs opts r) := by
  refine ⟨?_, ?_, ?_⟩
  · intro h
    have hne : ¬ (r.retryCount : Int) = opts.retryLimit := by omega
    simp [getErrorBackoffMs, hne]
  · intro h
    simp [getErrorBackoffMs, h]
  · intro r2 h
    simp [getErrorBackoffMs, h]

def c4opts : Opts :=
  { batchSize := 1, retryLimit := 3, backoffMs := 7, backoffCoefficient := 2,
    continueProcessingOnError := true, pow := fun x y => x * y }

def c4rec : Record :=
  { id := 4, status := .failed, receivedDate := 0, available := some 0,
    processedDate := none, retryCount := 1, failureReason := none,
    immediateFailure := false, additionalInfo := none,
    notifyFailureReason := none, resetDate := none, data := "c4" }

def c4recAtLimit : Record :=
  { c4rec with retryCount := 3 }

/-- Witness for C4 at a concrete input: retry count 1 below limit 3 gives
the formula value, and retry count 3 at the limit gives 0. -/
theorem backoff_formula_witness :
    ((c4rec.retryCount : Int) < c4opts.retryLimit ∨ c4opts.retryLimit < 0) ∧
    getErrorBackoffMs c4opts c4rec =
      c4opts.pow ((c4rec.retryCount : ℚ) + 1) c4opts.backoffCoefficient
        * c4opts.backoffMs ∧
    (c4recAtLimit.retryCount : Int) = c4opts.retryLimit ∧
    getErrorBackoffMs c4opts c4recAtLimit = 0 :=
  ⟨Or.inl (by norm_num [c4rec, c4opts]),
   (backoff_formula c4opts c4rec).1 (Or.inl (by norm_num [c4rec, c4opts])),
   by norm_num [c4recAtLimit, c4rec, c4opts],
   (backoff_formula c4opts c4recAtLimit).2.1
     (by norm_num [c4recAtLimit, c4rec, c4opts])⟩

def c5opts : Opts :=
  { batchSize := 1, retryLimit := 2, backoffMs := 3, backoffCoefficient := 1,
    continueProcessingOnError := false, pow := fun x _ => x }

def c5rec : Record :=
  { id := 5, status := .failed, receivedDate := 0, available := some 0,
    processedDate := none, retryCount := 1, failureReason := none,
    immediateFailure := false, additionalInfo := none,
    notifyFailureReason := none, resetDate := none, data := "c5" }

/-- Counterexample to claim C5: with a finite retryLimit of 2 and a
pre-failure retryCount of 1 (so the count after this failure equals the
limit), the computed delay is the full backoff `pow 2 c * 3 = 6`, not 0:
the code zeroes the delay only when the pre-failure count itself equals
the limit. -/
theorem penultimate_retry_delay_nonzero :
    0 ≤ c5opts.retryLimit ∧
    (c5rec.retryCount : Int) = c5opts.retryLimit - 1 ∧
    getErrorBackoffMs c5opts c5rec = 6 ∧
    getErrorBackoffMs c5opts c5rec ≠ 0 := by
  norm_num [getErrorBackoffMs, c5opts, c5rec]

/-- Claim C5 (amended): the delay is 0 exactly when the pre-failure
retryCount equals retryLimit; when the record's post-failure count equals
a finite retryLimit ≥ 1 (pre-failure count retryLimit − 1), the delay is
the ordinary backoff `pow retryLimit backoffCoefficient * backoffMs`, so
the exhausting failure still waits one more backoff before the
terminal-failure path runs. -/
theorem exhausting_failure_backoff (opts : Opts) (r : Record)
    (h1 : 1 ≤ opts.retryLimit)
    (h2 : (r.retryCount : Int) = opts.retryLimit - 1) :
    getErrorBackoffMs opts r =
      opts.pow ((r.retryCount : ℚ) + 1) opts.backoffCoefficient
        * opts.backoffMs ∧
    ((r.retryCount : Int) = opts.retryLimit → getErrorBackoffMs opts r = 0) := by
  constructor
  · have hne : ¬ (r.retryCount : Int) = opts.retryLimit := by omega
    simp [getErrorBackoffMs, hne]
  · intro h
    simp [getErrorBackoffMs, h]

/-- Witness for the amended C5 at the concrete counterexample input. -/
theorem exhausting_failure_backoff_witness :
    1 ≤ c5opts.retryLimit ∧
    (c5rec.retryCount : Int) = c5opts.retryLimit - 1 ∧
    getErrorBackoffMs c5opts c5rec =
      c5opts.pow ((c5rec.retryCount : ℚ) + 1) c5opts.backoffCoefficient
        * c5opts.backoffMs :=
  ⟨by norm_num [c5opts], by norm_num [c5rec, c5opts],
   (exhausting_failure_backoff c5opts c5rec (by norm_num [c5opts])
     (by norm_num [c5rec, c5opts])).1⟩


def c2opts : Opts :=
  { batchSize := 1, retryLimit := 0, backoffMs := 3, backoffCoefficient := 1,
    continueProcessingOnError := false, pow := fun x _ => x }

def c2rec : Record :=
  { id := 2, status := .received, receivedDate := 0, available := some 0,
    processedDate := none, retryCount := 0, failureReason := none,
    immediateFailure := false, additionalInfo := none,
    notifyFailureReason := none, resetDate := none, data := "c2" }

/-- Counterexample to claim C2: with retryLimit = 0 and a record whose
retryCount is 0 (or absent), retryCount ≥ retryLimit holds, yet the guard
`retryLimit >= 0 && record.retryCount && record.retryCount >= retryLimit`
is false on a falsy retryCount, so the handler IS invoked and the record
is not routed to the terminal notifier. -/
theorem retryLimit_zero_fresh_record_processed :
    0 ≤ c2opts.retryLimit ∧
    c2rec.retryCount = 0 ∧
    c2opts.retryLimit ≤ (c2rec.retryCount : Int) ∧
    recordHasFailed c2opts.retryLimit c2rec = false ∧
    (processRecord c2opts 10 (.success none) true "n" c2rec).handlerInvoked
      = true ∧
    (processRecord c2opts 10 (.success none) true "n" c2rec).notifierInvoked
      = false := by
  refine ⟨by decide, rfl, by decide, by decide, by decide, by decide⟩

/-- Claim C2 (amended): a record is routed past the handler straight to
the terminal notifier exactly when retryLimit ≥ 0, its retryCount is
present and nonzero, and retryCount ≥ retryLimit; a record whose
retryCount is 0 or absent is always handed to the handler, even when
retryLimit = 0. -/
theorem exhausted_record_skips_handler (opts : Opts) (now : ℚ)
    (h : HandlerResult) (ok : Bool) (nerr : String) (r : Record)
    (h0 : 0 ≤ opts.retryLimit) (h1 : r.retryCount ≠ 0)
    (h2 : opts.retryLimit ≤ (r.retryCount : Int)) :
    (processRecord opts now h ok nerr r).handlerInvoked = false ∧
    (processRecord opts now h ok nerr r).notifierInvoked = true ∧
    (processRecord opts now h ok nerr r).record =
      notifyFailedRecord now ok nerr r := by
  have hrhf : recordHasFailed opts.retryLimit r = true := by
    simp only [recordHasFailed, Bool.and_eq_true, decide_eq_true_eq,
      Bool.not_eq_true', beq_eq_false_iff_ne]
    exact ⟨⟨h0, h1⟩, h2⟩
  simp [processRecord, hrhf]

def c2exhOpts : Opts :=
  { c2opts with retryLimit := 2 }

def c2exhRec : Record :=
  { c2rec with status := .failed, retryCount := 3 }

/-- Witness for the amended C2: a failed record with retryCount 3 under
retryLimit 2 bypasses the handler and reaches the notifier. -/
theorem exhausted_record_skips_handler_witness :
    0 ≤ c2exhOpts.retryLimit ∧ c2exhRec.retryCount ≠ 0 ∧
    c2exhOpts.retryLimit ≤ (c2exhRec.retryCount : Int) ∧
    ((processRecord c2exhOpts 10 (.success none) true "n" c2exhRec).handlerInvoked
        = false ∧
      (processRecord c2exhOpts 10 (.success none) true "n" c2exhRec).notifierInvoked
        = true ∧
      (processRecord c2exhOpts 10 (.success none) true "n" c2exhRec).record =
        notifyFailedRecord 10 true "n" c2exhRec) :=
  ⟨by decide, by decide, by decide,
   exhausted_record_skips_handler c2exhOpts 10 (.success none) true "n"
     c2exhRec (by decide) (by decide) (by decide)⟩

def c3opts : Opts :=
  { batchSize := 1, retryLimit := 5, backoffMs := 3, backoffCoefficient := 1,
    continueProcessingOnError := false, pow := fun x _ => x }

def c3rec : Record :=
  { id := 3, status := .received, receivedDate := 0, available := some 0,
    processedDate := none, retryCount := 2, failureReason := some "old",
    immediateFailure := false, additionalInfo := none,
    notifyFailureReason := none, resetDate := none, data := "c3" }

/-- Counterexample to claim C3: the success outcome does change
`retryCount` — `processSuccess` unsets it, so a record with retryCount 2
that succeeds ends with no retryCount (0 in this model), not 2. -/
theorem success_clears_retryCount :
    c3rec.retryCount = 2 ∧
    (processRecord c3opts 10 (.success none) true "n" c3rec).record.retryCount
      = 0 := by
  refine ⟨rfl, by decide⟩

/-- Claim C3 (amended): an ordinary failure sets status `failed`,
`processedDate = now`, `failureReason` to the error detail, `available =
now + backoff(pre-failure retryCount)`, and increments `retryCount` by
exactly 1; skip, immediate failure and notification leave `retryCount`
unchanged, while success clears it (unsets the field). -/
theorem ordinary_failure_mutation (opts : Opts) (now : ℚ) (err : String)
    (r : Record) (d : Option ℚ) (ok : Bool) (nerr reason : String) :
    (processFailure opts now err r).status = .failed ∧
    (processFailure opts now err r).processedDate = some now ∧
    (processFailure opts now err r).failureReason = some err ∧
    (processFailure opts now err r).available =
      some (now + getErrorBackoffMs opts r) ∧
    (processFailure opts now err r).retryCount = r.retryCount + 1 ∧
    (processSkip now d r).retryCount = r.retryCount ∧
    (failImmediatelyUpdate reason r).retryCount = r.retryCount ∧
    (notifyFailedRecord now ok nerr r).retryCount = r.retryCount ∧
    (processSuccess now r).retryCount = 0 := by
  refine ⟨rfl, rfl, rfl, rfl, rfl, rfl, rfl, ?_, rfl⟩
  cases ok <;> rfl

def c6rec : Record :=
  { id := 6, status := .failed, receivedDate := 0, available := some 5,
    processedDate := some 1, retryCount := 3, failureReason := some "boom",
    immediateFailure := false, additionalInfo := none,
    notifyFailureReason := none, resetDate := none, data := "c6" }

/-- Counterexample to claim C6: the transitions to `notified` and
`notifyFailure` do not unset `available` — a failed record carrying
`available = 5` keeps it after notification, so a terminal record carries
an `available` field. -/
theorem notified_record_keeps_available :
    (notifyFailedRecord 10 true "x" c6rec).status = .notified ∧
    (notifyFailedRecord 10 true "x" c6rec).available = some 5 ∧
    (notifyFailedRecord 10 false "x" c6rec).status = .notifyFailure ∧
    (notifyFailedRecord 10 false "x" c6rec).available = some 5 := by
  refine ⟨by decide, by decide, by decide, by decide⟩

/-- Claim C6 (amended): every operation that leaves a record in a
processable status (enqueue, ordinary failure, skip, reset) sets a defined
`available`; the transition to `processed` unsets it; but the transitions
to `notified` and `notifyFailure` (and the immediate-failure update) leave
any existing `available` in place, so terminal notified records may retain
one. -/
theorem available_field_lifecycle (opts : Opts) (now : ℚ) (id : Nat)
    (payload err nerr reason : String) (r : Record) (d : Option ℚ)
    (ok : Bool) :
    (insertNewRecord now id payload).available = some now ∧
    (processFailure opts now err r).available =
      some (now + getErrorBackoffMs opts r) ∧
    (processSkip now d r).available = some (now + getSkipBackoff d) ∧
    (resetRecord now r).available = some now ∧
    (processSuccess now r).available = none ∧
    (notifyFailedRecord now ok nerr r).available = r.available ∧
    (failImmediatelyUpdate reason r).available = r.available := by
  refine ⟨rfl, rfl, rfl, rfl, rfl, ?_, rfl⟩
  cases ok <;> rfl

def c8opts : Opts :=
  { batchSize := 1, retryLimit := -1, backoffMs := 3, backoffCoefficient := 1,
    continueProcessingOnError := false, pow := fun x _ => x }

def c8rec : Record :=
  { id := 8, status := .received, receivedDate := 0, available := some 0,
    processedDate := none, retryCount := 4, failureReason := some "old",
    immediateFailure := false, additionalInfo := some "info",
    notifyFailureReason := none, resetDate := none, data := "c8" }

/-- Claim C8: when the handler signals skip with optional delay d
(default 0), the persisted mutation sets exactly status `skipped`,
`processedDate = now`, `available = now + d`, and leaves every other field
— in particular `retryCount` — unchanged (the record-update equality keeps
all remaining fields of `r`). -/
theorem skip_mutation_frame (opts : Opts) (now : ℚ) (d : Option ℚ)
    (ok : Bool) (nerr : String) (r : Record)
    (h : recordHasFailed opts.retryLimit r = false) :
    (processRecord opts now (.skip d) ok nerr r).record = processSkip now d r ∧
    processSkip now d r =
      { r with
        status := .skipped
        processedDate := some now
        available := some (now + d.getD 0) } ∧
    (processSkip now d r).retryCount = r.retryCount := by
  refine ⟨?_, rfl, rfl⟩
  simp [processRecord, h]

/-- Witness for C8: a concrete record skipped with a 500 ms delay. -/
theorem skip_mutation_frame_witness :
    recordHasFailed c8opts.retryLimit c8rec = false ∧
    ((processRecord c8opts 20 (.skip (some 500)) true "n" c8rec).record =
        processSkip 20 (some 500) c8rec ∧
      processSkip 20 (some 500) c8rec =
        { c8rec with
          status := .skipped
          processedDate := some 20
          available := some (20 + (some (500 : ℚ)).getD 0) } ∧
      (processSkip 20 (some 500) c8rec).retryCount = c8rec.retryCount) :=
  ⟨by decide,
   skip_mutation_frame c8opts 20 (some 500) true "n" c8rec (by decide)⟩

/-- Claim C9: invoking a tick while the orchestrator's busy flag is set is
a no-op — the state is unchanged and no tick (hence no selection or record
processing) starts. -/
theorem overlapping_tick_noop (s : OrchestratorState)
    (h : s.running = true) :
    tryStartTick s = (s, false) := by
  simp [tryStartTick, h]

def busyState : OrchestratorState :=
  { running := true, ticksStarted := 3 }

/-- Witness for C9 at a concrete busy state. -/
theorem overlapping_tick_noop_witness :
    busyState.running = true ∧ tryStartTick busyState = (busyState, false) :=
  ⟨rfl, overlapping_tick_noop busyState rfl⟩


/-- Claim C10: in strict mode, only the first failed record of the
receivedDate-sorted batch decides stalling — the prioritizer returns the
empty batch exactly when that record's `available` is in the future, and
when it is not, any other still-backed-off record (failed or otherwise) is
silently dropped by the `available <= now` filter instead of stalling the
batch. -/
theorem first_failed_decides_stall (opts : Opts) (now : ℚ)
    (records : List Record) (f : Record) (tf : ℚ)
    (hstrict : opts.continueProcessingOnError = false)
    (hf : records.find? (fun r => r.status == .failed) = some f)
    (htf : f.available = some tf) :
    (prioritizeRecords opts now records = [] ↔ availFuture f now = true) ∧
    (availFuture f now = false →
      prioritizeRecords opts now records =
        records.filter (fun r => availLE r now) ∧
      ∀ r ∈ records, availFuture r now = true →
        r ∉ prioritizeRecords opts now records) := by
  have hfm : f ∈ records := List.mem_of_find?_eq_some hf
  cases hfut : availFuture f now with
  | true =>
    constructor
    · simp [prioritizeRecords, hstrict, hf, hfut]
    · intro h
      exact absurd h (by decide)
  | false =>
    have hresult : prioritizeRecords opts now records =
        records.filter (fun r => availLE r now) := by
      simp [prioritizeRecords, hstrict, hf, hfut]
    have hfle : availLE f now = true :=
      availLE_true_of_not_future f now tf htf hfut
    have hfmem : f ∈ records.filter (fun r => availLE r now) :=
      List.mem_filter.mpr ⟨hfm, hfle⟩
    constructor
    · rw [hresult]
      constructor
      · intro h
        rw [h] at hfmem
        exact absurd hfmem (List.not_mem_nil f)
      · intro h
        exact absurd h (by decide)
    · intro _
      refine ⟨hresult, ?_⟩
      intro r hr hrfut hmem
      rw [hresult] at hmem
      have hle := (List.mem_filter.mp hmem).2
      rw [availLE_false_of_future r now hrfut] at hle
      cases hle

def c10opts : Opts :=
  { batchSize := 2, retryLimit := 5, backoffMs := 3, backoffCoefficient := 1,
    continueProcessingOnError := false, pow := fun x _ => x }

def c10recA : Record :=
  { id := 101, status := .failed, receivedDate := 0, available := some 0,
    processedDate := none, retryCount := 1, failureReason := some "a",
    immediateFailure := false, additionalInfo := none,
    notifyFailureReason := none, resetDate := none, data := "A" }

def c10recB : Record :=
  { c10recA with
    id := 102
    receivedDate := 1
    available := some 100
    data := "B" }

/-- Witness for C10: two failed records; the first is available, the
second still backed off, and the instantiated conclusion holds. -/
theorem first_failed_decides_stall_witness :
    c10opts.continueProcessingOnError = false ∧
    ([c10recA, c10recB].find? (fun r => r.status == .failed) = some c10recA) ∧
    c10recA.available = some 0 ∧
    ((prioritizeRecords c10opts 10 [c10recA, c10recB] = [] ↔
        availFuture c10recA 10 = true) ∧
      (availFuture c10recA 10 = false →
        prioritizeRecords c10opts 10 [c10recA, c10recB] =
          [c10recA, c10recB].filter (fun r => availLE r 10) ∧
        ∀ r ∈ [c10recA, c10recB], availFuture r 10 = true →
          r ∉ prioritizeRecords c10opts 10 [c10recA, c10recB])) :=
  ⟨rfl, by decide, rfl,
   first_failed_decides_stall c10opts 10 [c10recA, c10recB] c10recA 0 rfl
     (by decide) rfl⟩


/-- Processing a series whose prefix raised no error continues into the
suffix: results concatenate and the stopping error is the suffix's. -/
theorem runSeries_append_of_none (opts : Opts) (now : ℚ)
    (xs ys : List RecordTask) (h : (runSeries opts now xs).2 = none) :
    runSeries opts now (xs ++ ys) =
      ((runSeries opts now xs).1 ++ (runSeries opts now ys).1,
        (runSeries opts now ys).2) := by
  induction xs with
  | nil => simp [runSeries]
  | cons t rest ih =>
    cases hstep : t.step with
    | infra m =>
      rw [runSeries, hstep] at h
      cases h
    | handler hr =>
      by_cases hstop :
          (processRecord opts now hr t.onFailureOk t.notifyErr t.record).stopped
      · rw [runSeries, hstep] at h
        simp [hstop] at h
      · have h2 : (runSeries opts now rest).2 = none := by
          rw [runSeries, hstep] at h
          simpa [hstop] using h
        have ih2 := ih h2
        rw [List.cons_append, runSeries, hstep, runSeries, hstep]
        simp [hstop, ih2]

/-- An ordinary handler error on a non-exhausted record throws the
sentinel exactly in strict mode. -/
theorem processRecord_error_stopped (opts : Opts) (now : ℚ) (m : String)
    (ok : Bool) (nerr : String) (r : Record)
    (hnf : recordHasFailed opts.retryLimit r = false) :
    (processRecord opts now (.error m) ok nerr r).stopped =
      !opts.continueProcessingOnError := by
  simp [processRecord, hnf]

/-- Claim C7: `processNextBatch` never rejects because of a handler-level
outcome — in strict mode an ordinary handler failure raises the internal
stop sentinel, the remaining records of the batch are not processed, and
the caller observes `.ok` with exactly the results up to and including the
failing record; a pre-hook error or a store/infrastructure error, by
contrast, propagates to the caller. -/
theorem sentinel_swallowed_batch_halts (opts : Opts) (now : ℚ)
    (xs zs : List RecordTask) (t : RecordTask) (m : String)
    (hstrict : opts.continueProcessingOnError = false)
    (hxs : (runSeries opts now xs).2 = none)
    (hstep : t.step = .handler (.error m))
    (hnf : recordHasFailed opts.retryLimit t.record = false) :
    processNextBatch opts now none (xs ++ t :: zs) =
      .ok ((runSeries opts now xs).1 ++
        [processRecord opts now (.error m) t.onFailureOk t.notifyErr
          t.record]) ∧
    (∀ pe batch, processNextBatch opts now (some pe) batch = .error pe) ∧
    (∀ batch m2, (runSeries opts now batch).2 = some (.infra m2) →
      processNextBatch opts now none batch = .error m2) := by
  have hstop :
      (processRecord opts now (.error m) t.onFailureOk t.notifyErr
        t.record).stopped = true := by
    rw [processRecord_error_stopped opts now m t.onFailureOk t.notifyErr
      t.record hnf, hstrict]
    rfl
  have hts : runSeries opts now (t :: zs) =
      ([processRecord opts now (.error m) t.onFailureOk t.notifyErr
          t.record],
        some .sentinel) := by
    rw [runSeries, hstep]
    simp [hstop]
  refine ⟨?_, ?_, ?_⟩
  · have happ := runSeries_append_of_none opts now xs (t :: zs) hxs
    rw [hts] at happ
    simp [processNextBatch, happ]
  · intro pe batch
    rfl
  · intro batch m2 hinf
    simp [processNextBatch, hinf]

def c7opts : Opts :=
  { batchSize := 5, retryLimit := 5, backoffMs := 3, backoffCoefficient := 1,
    continueProcessingOnError := false, pow := fun x _ => x }

def c7rec : Record :=
  { id := 71, status := .received, receivedDate := 0, available := some 0,
    processedDate := none, retryCount := 0, failureReason := none,
    immediateFailure := false, additionalInfo := none,
    notifyFailureReason := none, resetDate := none, data := "c7a" }

def c7task : RecordTask :=
  { record := c7rec, step := .handler (.error "boom"), onFailureOk := true,
    notifyErr := "n" }

def c7task2 : RecordTask :=
  { c7task with
    record := { c7rec with id := 72, receivedDate := 1, data := "c7b" }
    step := .handler (.success none) }

/-- Witness for C7: a two-record batch whose first record fails with an
ordinary error in strict mode; the batch resolves `.ok` with only that
record processed. -/
theorem sentinel_swallowed_batch_halts_witness :
    c7opts.continueProcessingOnError = false ∧
    (runSeries c7opts 10 []).2 = none ∧
    c7task.step = .handler (.error "boom") ∧
    recordHasFailed c7opts.retryLimit c7task.record = false ∧
    (processNextBatch c7opts 10 none ([] ++ c7task :: [c7task2]) =
        .ok ((runSeries c7opts 10 []).1 ++
          [processRecord c7opts 10 (.error "boom") c7task.onFailureOk
            c7task.notifyErr c7task.record]) ∧
      (∀ pe batch, processNextBatch c7opts 10 (some pe) batch = .error pe) ∧
      (∀ batch m2, (runSeries c7opts 10 batch).2 = some (.infra m2) →
        processNextBatch c7opts 10 none batch = .error m2)) :=
  ⟨rfl, rfl, rfl, by decide,
   sentinel_swallowed_batch_halts c7opts 10 [] [c7task2] c7task "boom" rfl
     rfl rfl (by decide)⟩


/-- Prioritization never disturbs a receivedDate-sorted batch: it returns
the batch itself, the empty list, or an order-preserving filter of it. -/
theorem prioritize_sorted (opts : Opts) (now : ℚ) (records : List Record)
    (h : records.Sorted recLE) :
    (prioritizeRecords opts now records).Sorted recLE := by
  unfold prioritizeRecords
  split
  · exact h
  · split
    · split
      · exact List.sorted_nil
      · exact List.Pairwise.sublist (List.filter_sublist _) h
    · exact List.Pairwise.sublist (List.filter_sublist _) h

def c1opts : Opts :=
  { batchSize := 2, retryLimit := 5, backoffMs := 3, backoffCoefficient := 1,
    continueProcessingOnError := false, pow := fun x _ => x }

def c1recA : Record :=
  { id := 11, status := .failed, receivedDate := 0, available := some 0,
    processedDate := none, retryCount := 1, failureReason := some "a",
    immediateFailure := false, additionalInfo := none,
    notifyFailureReason := none, resetDate := none, data := "A" }

def c1recB : Record :=
  { c1recA with
    id := 12
    receivedDate := 1
    available := some 100
    data := "B" }

/-- Counterexample to claim C1: the fetched strict-mode batch contains a
failed record (the second one) whose `available` is still in the future,
yet the returned batch is not empty — the code consults only the first
failed record, which is available, and merely filters the other one out. -/
theorem future_failed_does_not_always_stall :
    c1recB ∈ fetchBatch c1opts [c1recA, c1recB] 10 ∧
    c1recB.status = .failed ∧
    availFuture c1recB 10 = true ∧
    getNextBatch c1opts [c1recA, c1recB] 10 = [c1recA] ∧
    getNextBatch c1opts [c1recA, c1recB] 10 ≠ [] := by
  refine ⟨by decide, rfl, by decide, by decide, by decide⟩

/-- Claim C1 (amended): in strict mode, batch selection queries records
with status in received/failed/skipped and `available <= now`, unioned
with any record of status failed, sorted by `receivedDate` ascending and
limited to `batchSize`; then, if the first failed record of the fetched
set (earliest `receivedDate`) has an `available` still in the future, the
returned batch is empty; otherwise the returned batch is the fetched set
filtered to records with `available <= now`, still in `receivedDate`
order. -/
theorem strict_selection_matches_spec (opts : Opts) (coll : List Record)
    (now : ℚ) (hstrict : opts.continueProcessingOnError = false) :
    getNextBatch opts coll now = specStrictSelect opts.batchSize coll now ∧
    (getNextBatch opts coll now).Sorted recLE := by
  have hq : coll.filter (batchQuery opts.continueProcessingOnError now) =
      coll.filter (specStrictQuery now) := by
    apply List.filter_congr
    intro r _
    rw [hstrict]
    show ((r.status == .failed) || unprocessedMatch now r) =
      (unprocessedMatch now r || (r.status == .failed))
    exact Bool.or_comm _ _
  have hfetch : fetchBatch opts coll now =
      (List.insertionSort recLE (coll.filter (specStrictQuery now))).take
        opts.batchSize := by
    rw [fetchBatch, hq]
  have hsorted : (fetchBatch opts coll now).Sorted recLE :=
    List.Pairwise.sublist (List.take_sublist _ _)
      (List.sorted_insertionSort recLE _)
  constructor
  · show prioritizeRecords opts now (fetchBatch opts coll now) = _
    rw [hfetch]
    unfold prioritizeRecords specStrictSelect
    rw [hstrict]
    rfl
  · exact prioritize_sorted opts now (fetchBatch opts coll now) hsorted

/-- Witness for the amended C1 at the concrete two-record collection. -/
theorem strict_selection_matches_spec_witness :
    c1opts.continueProcessingOnError = false ∧
    (getNextBatch c1opts [c1recA, c1recB] 10 =
        specStrictSelect c1opts.batchSize [c1recA, c1recB] 10 ∧
      (getNextBatch c1opts [c1recA, c1recB] 10).Sorted recLE) :=
  ⟨rfl, strict_selection_matches_spec c1opts [c1recA, c1recB] 10 rfl⟩

end MongoQueue
